import Mathlib

/-!
Verification of the core of `shelly_exporter.py` (a Prometheus exporter for
Shelly devices): the metrics collection model (`Metrics`), its `add` and
`merge` operations, the pickle-backed persisted store (`MetricsFile`), the
device-type dispatch (`Shelly.get_metrics` and its `_get_metrics_*` getters)
and the two HTTP handlers (`Prober.on_get` for `/probe` and `Static.on_get`
for `/metrics`).

Python dictionaries are modelled as insertion-ordered association lists,
JSON values as an inductive `Json`, Python exceptions as an explicit error
type `PyErr` threaded through `Except`, and the metrics pickle file as an
optional document (`none` = the file does not exist).
-/

/-- A JSON value as returned by a device's HTTP API (`requests.get(...).json()`). -/
inductive Json where
  | null : Json
  | bool : Bool → Json
  | num : Int → Json
  | str : String → Json
  | arr : List Json → Json
  | obj : List (String × Json) → Json

/-- Python exceptions that the exporter's code paths can raise:
`ShellyException` (raised by `Shelly.api` on any transport or JSON-decode
failure, and by the constructor on an empty name), `KeyError` (missing
dictionary field such as `status['wifi_sta']`), `TypeError` (indexing or
iterating a non-container), and an I/O error (e.g. opening a missing pickle
file). Only `ShellyException` is caught by the request handlers. -/
inductive PyErr where
  | shelly : String → PyErr
  | keyError : String → PyErr
  | typeError : PyErr
  | ioError : PyErr
deriving DecidableEq

/-- A label set: a Python dict from label name to value, insertion ordered. -/
abbrev Labels := List (String × Json)

/-- First-match lookup in an association list, the semantics of `d[k]`
membership tests on Python dicts built without duplicate keys. -/
def dictLookup (d : Labels) (k : String) : Option Json :=
  match d with
  | [] => none
  | (k2, v) :: rest => if k2 = k then some v else dictLookup rest k

/-- The Python dict merge `\x7b**a, **b\x7d`: keys of `a` in their original
order with values overridden by `b` where present, then the keys of `b` not
in `a`, appended in their order. -/
def dictMerge (a b : Labels) : Labels :=
  a.map (fun p =>
    match dictLookup b p.1 with
    | some v => (p.1, v)
    | none => p) ++
  b.filter (fun p => (dictLookup a p.1).isNone)

/-- One sample of a metric: the merged label dict and the raw value stored by
`Metrics.add` (the dict `\x7b'labels': _labels, 'value': value\x7d`). -/
structure Sample where
  labels : Labels
  value : Json

/-- The per-metric-name record stored in `Metrics._metrics`:
`\x7b'help': ..., 'type': ..., 'values': [...]\x7d`. -/
structure MetricData where
  help : String
  type : String
  values : List Sample

/-- The `Metrics` class: an optional name pfx (`_prefix`), collection-level
labels (`_labels`) and the insertion-ordered dict `_metrics` from full metric
name to its record. -/
structure Metrics where
  pfx : Option String
  labels : Labels
  metrics : List (String × MetricData)

/-- Full metric name: `f"  " if self._prefix else metric` — the pfx is
prepended with an underscore when it is set and truthy (a nonempty string). -/
def prefName (pfx : Option String) (metric : String) : String :=
  match pfx with
  | some p => if p = "" then metric else p ++ "_" ++ metric
  | none => metric

/-- The body of `Metrics.add` acting on the `_metrics` dict: if the name is
absent a fresh record with the given help/type and the single sample is
appended at the end; otherwise the sample is appended to the existing
record's value list, keeping its recorded help/type. -/
def addEntries (ms : List (String × MetricData)) (n : String) (s : Sample)
    (h t : String) : List (String × MetricData) :=
  match ms with
  | [] => [(n, ⟨h, t, [s]⟩)]
  | (n2, d) :: rest =>
      if n2 = n then (n2, ⟨d.help, d.type, d.values ++ [s]⟩) :: rest
      else (n2, d) :: addEntries rest n s h t

/-- The method `Metrics.add(metric, value, labels, help, type)`: merge the
collection labels with the per-call labels (per-call wins), qualify the name
with the pfx, and record the sample. -/
def Metrics.add (m : Metrics) (metric : String) (v : Json) (labels : Labels)
    (h t : String) : Metrics :=
  ⟨m.pfx, m.labels,
    addEntries m.metrics (prefName m.pfx metric) ⟨dictMerge m.labels labels, v⟩ h t⟩

/-- First-match lookup of a metric record by full name in `_metrics`. -/
def findEntry (ms : List (String × MetricData)) (k : String) : Option MetricData :=
  match ms with
  | [] => none
  | (n, d) :: rest => if n = k then some d else findEntry rest k

/-- Record stored under a full metric name, if any. -/
def Metrics.find? (m : Metrics) (k : String) : Option MetricData :=
  findEntry m.metrics k

/-- Sample list of a metric name (empty when the name is absent). -/
def metricValues (m : Metrics) (k : String) : List Sample :=
  match m.find? k with
  | some d => d.values
  | none => []

/-- Recorded help/type of a metric name, if present. -/
def metricHelpType (m : Metrics) (k : String) : Option (String × String) :=
  (m.find? k).map (fun d => (d.help, d.type))

/-- A `Metrics()` constructed with all defaults, as in `Metrics.merge`. -/
def emptyMetrics : Metrics := ⟨none, [], []⟩

/-- Inner two loops of `Metrics.merge`: re-add every sample of one metric
record into the accumulator, passing along the record's help and type. -/
def mergeInto (acc : Metrics) (entry : String × MetricData) : Metrics :=
  entry.2.values.foldl
    (fun a v => a.add entry.1 v.value v.labels entry.2.help entry.2.type) acc

/-- Loop body of `Metrics.merge` over one input collection. -/
def mergeColl (acc : Metrics) (item : Metrics) : Metrics :=
  item.metrics.foldl mergeInto acc

/-- The static method `Metrics.merge(metrics_list)`. -/
def Metrics.merge (l : List Metrics) : Metrics :=
  l.foldl mergeColl emptyMetrics

/-- Well-formedness invariant every `Metrics` reachable in the Python program
satisfies: `_metrics` is a dict (unique keys) and every record holds at least
one sample (`add` creates a record and immediately appends a sample). -/
def Wf (m : Metrics) : Prop :=
  (m.metrics.map (fun e => e.1)).Nodup ∧ ∀ e ∈ m.metrics, e.2.values.length ≠ 0

instance (m : Metrics) : Decidable (Wf m) := by
  unfold Wf
  exact inferInstance

theorem dictLookup_append (a b : Labels) (k : String) :
    dictLookup (a ++ b) k =
      match dictLookup a k with
      | some v => some v
      | none => dictLookup b k := by
  induction a with
  | nil => simp [dictLookup]
  | cons p rest ih =>
      obtain ⟨k1, v1⟩ := p
      by_cases h : k1 = k
      · simp [dictLookup, h]
      · simp [dictLookup, h, ih]

theorem dictLookup_mapOverride (a b : Labels) (k : String) :
    dictLookup (a.map (fun p =>
      match dictLookup b p.1 with
      | some v => (p.1, v)
      | none => p)) k =
      match dictLookup a k, dictLookup b k with
      | some _, some v => some v
      | some w, none => some w
      | none, _ => none := by
  induction a with
  | nil => simp [dictLookup]
  | cons p rest ih =>
      obtain ⟨k1, v1⟩ := p
      by_cases h : k1 = k
      · subst h
        cases hb : dictLookup b k1 <;> simp [dictLookup, hb]
      · cases hb : dictLookup b k1 <;> simp [dictLookup, hb, h, ih]

theorem dictLookup_filterNotIn (a b : Labels) (k : String) :
    dictLookup (b.filter (fun p => (dictLookup a p.1).isNone)) k =
      match dictLookup a k with
      | some _ => none
      | none => dictLookup b k := by
  induction b with
  | nil => cases dictLookup a k <;> simp [dictLookup]
  | cons p rest ih =>
      obtain ⟨k1, v1⟩ := p
      by_cases h : k1 = k
      · subst h
        cases ha : dictLookup a k1 <;> simp [List.filter, dictLookup, ha, ih]
      · cases ha : dictLookup a k1 <;> cases hb : dictLookup a k <;>
          simp [List.filter, dictLookup, ha, hb, h, ih]

/-- Lookup in a Python dict merge: a key present in the right dict takes the
right dict's value; otherwise the left dict's value is used. -/
theorem dictLookup_dictMerge (a b : Labels) (k : String) :
    dictLookup (dictMerge a b) k =
      match dictLookup b k with
      | some v => some v
      | none => dictLookup a k := by
  unfold dictMerge
  rw [dictLookup_append, dictLookup_mapOverride, dictLookup_filterNotIn]
  cases ha : dictLookup a k <;> cases hb : dictLookup b k <;> simp

/-- Merging into an empty dict returns the right dict unchanged. -/
theorem dictMerge_nil (b : Labels) : dictMerge [] b = b := by
  unfold dictMerge
  simp [dictLookup]

theorem findEntry_addEntries (ms : List (String × MetricData)) (n : String)
    (s : Sample) (h t : String) (k : String) :
    findEntry (addEntries ms n s h t) k =
      if k = n then
        some (match findEntry ms n with
              | some d => ⟨d.help, d.type, d.values ++ [s]⟩
              | none => ⟨h, t, [s]⟩)
      else findEntry ms k := by
  induction ms with
  | nil =>
      by_cases hk : k = n
      · subst hk
        simp [addEntries, findEntry]
      · simp [addEntries, findEntry, hk, Ne.symm hk]
  | cons p rest ih =>
      obtain ⟨n2, d⟩ := p
      by_cases h2 : n2 = n
      · subst h2
        by_cases hk : k = n2
        · subst hk
          simp [addEntries, findEntry]
        · simp [addEntries, findEntry, hk, Ne.symm hk]
      · by_cases hk : k = n
        · have hn2k : ¬ n2 = k := by
            rw [hk]
            exact h2
          rw [hk] at ih
          simp [addEntries, findEntry, h2, hn2k, hk, ih]
        · by_cases h4 : n2 = k
          · simp [addEntries, findEntry, h2, h4, hk, ih]
          · simp [addEntries, findEntry, h2, h4, hk, ih]

theorem find?_add (m : Metrics) (metric : String) (v : Json) (l : Labels)
    (h t : String) (k : String) :
    (m.add metric v l h t).find? k =
      if k = prefName m.pfx metric then
        some (match m.find? (prefName m.pfx metric) with
              | some d => ⟨d.help, d.type, d.values ++ [⟨dictMerge m.labels l, v⟩]⟩
              | none => ⟨h, t, [⟨dictMerge m.labels l, v⟩]⟩)
      else m.find? k := by
  unfold Metrics.add Metrics.find?
  exact findEntry_addEntries m.metrics (prefName m.pfx metric) _ h t k

/-- Adding a sample appends it (with the merged labels) to the named metric's
sample list and leaves every other metric's sample list unchanged. -/
theorem metricValues_add (m : Metrics) (metric : String) (v : Json) (l : Labels)
    (h t : String) (k : String) :
    metricValues (m.add metric v l h t) k =
      if k = prefName m.pfx metric
      then metricValues m k ++ [⟨dictMerge m.labels l, v⟩]
      else metricValues m k := by
  unfold metricValues
  rw [find?_add]
  by_cases hk : k = prefName m.pfx metric
  · subst hk
    rcases hf : m.find? (prefName m.pfx metric) with _ | d <;> simp [hf]
  · simp [hk]

/-- Adding a sample records the given help/type only when the metric name is
new; an existing record's help/type is kept (first-write-wins). -/
theorem metricHelpType_add (m : Metrics) (metric : String) (v : Json) (l : Labels)
    (h t : String) (k : String) :
    metricHelpType (m.add metric v l h t) k =
      if k = prefName m.pfx metric
      then some ((metricHelpType m k).getD (h, t))
      else metricHelpType m k := by
  unfold metricHelpType
  rw [find?_add]
  by_cases hk : k = prefName m.pfx metric
  · subst hk
    rcases hf : m.find? (prefName m.pfx metric) with _ | d <;> simp [hf]
  · simp [hk]

theorem add_pfx (m : Metrics) (metric : String) (v : Json) (l : Labels)
    (h t : String) : (m.add metric v l h t).pfx = m.pfx := rfl

theorem add_labels (m : Metrics) (metric : String) (v : Json) (l : Labels)
    (h t : String) : (m.add metric v l h t).labels = m.labels := rfl

theorem foldlAdd_pfx (n h t : String) (vs : List Sample) (acc : Metrics) :
    (vs.foldl (fun a v => a.add n v.value v.labels h t) acc).pfx = acc.pfx := by
  induction vs generalizing acc with
  | nil => rfl
  | cons v rest ih => simp [List.foldl, ih, add_pfx]

theorem foldlAdd_labels (n h t : String) (vs : List Sample) (acc : Metrics) :
    (vs.foldl (fun a v => a.add n v.value v.labels h t) acc).labels = acc.labels := by
  induction vs generalizing acc with
  | nil => rfl
  | cons v rest ih => simp [List.foldl, ih, add_labels]

theorem mergeInto_pfx (acc : Metrics) (e : String × MetricData) :
    (mergeInto acc e).pfx = acc.pfx := by
  unfold mergeInto
  exact foldlAdd_pfx e.1 e.2.help e.2.type e.2.values acc

theorem mergeInto_labels (acc : Metrics) (e : String × MetricData) :
    (mergeInto acc e).labels = acc.labels := by
  unfold mergeInto
  exact foldlAdd_labels e.1 e.2.help e.2.type e.2.values acc

/-- Re-adding a record's samples into an unprefixed, unlabeled accumulator
appends exactly those samples, verbatim, to that one metric name. -/
theorem metricValues_foldlAdd (n h t : String) (vs : List Sample) (acc : Metrics)
    (hp : acc.pfx = none) (hl : acc.labels = []) (k : String) :
    metricValues (vs.foldl (fun a v => a.add n v.value v.labels h t) acc) k =
      if k = n then metricValues acc k ++ vs else metricValues acc k := by
  induction vs generalizing acc with
  | nil =>
      by_cases hk : k = n <;> simp [hk]
  | cons v rest ih =>
      have hstep := metricValues_add acc n v.value v.labels h t k
      rw [hp] at hstep
      rw [hl] at hstep
      rw [dictMerge_nil] at hstep
      simp only [List.foldl]
      rw [ih (acc.add n v.value v.labels h t) (by rw [add_pfx, hp]) (by rw [add_labels, hl])]
      by_cases hk : k = n
      · subst hk
        simp only [prefName] at hstep
        simp [hstep]
      · simp only [prefName] at hstep
        simp [hstep, hk]

/-- Re-adding a record's samples records the record's help/type only when the
name was absent from the accumulator (and at least one sample was added). -/
theorem metricHelpType_foldlAdd (n h t : String) (vs : List Sample) (acc : Metrics)
    (hp : acc.pfx = none) (k : String) :
    metricHelpType (vs.foldl (fun a v => a.add n v.value v.labels h t) acc) k =
      if k = n ∧ vs.length ≠ 0 then some ((metricHelpType acc k).getD (h, t))
      else metricHelpType acc k := by
  induction vs generalizing acc with
  | nil => simp
  | cons v rest ih =>
      have hstep := metricHelpType_add acc n v.value v.labels h t k
      rw [hp] at hstep
      simp only [prefName] at hstep
      simp only [List.foldl]
      rw [ih (acc.add n v.value v.labels h t) (by rw [add_pfx, hp])]
      by_cases hk : k = n
      · subst hk
        rcases hrest : rest with _ | ⟨v2, rest2⟩
        · simp [hstep]
        · simp only [hstep, if_pos rfl]
          simp
      · simp [hstep, hk]

theorem metricValues_mergeInto (acc : Metrics) (n : String) (d : MetricData)
    (hp : acc.pfx = none) (hl : acc.labels = []) (k : String) :
    metricValues (mergeInto acc (n, d)) k =
      if k = n then metricValues acc k ++ d.values else metricValues acc k := by
  unfold mergeInto
  exact metricValues_foldlAdd n d.help d.type d.values acc hp hl k

theorem metricHelpType_mergeInto (acc : Metrics) (n : String) (d : MetricData)
    (hp : acc.pfx = none) (k : String) :
    metricHelpType (mergeInto acc (n, d)) k =
      if k = n ∧ d.values.length ≠ 0 then some ((metricHelpType acc k).getD (d.help, d.type))
      else metricHelpType acc k := by
  unfold mergeInto
  exact metricHelpType_foldlAdd n d.help d.type d.values acc hp k

theorem findEntry_eq_none_of_not_mem (ms : List (String × MetricData)) (k : String)
    (hk : k ∉ ms.map (fun e => e.1)) : findEntry ms k = none := by
  induction ms with
  | nil => rfl
  | cons p rest ih =>
      obtain ⟨n, d⟩ := p
      simp only [List.map, List.mem_cons] at hk
      push_neg at hk
      simp [findEntry, Ne.symm hk.1, ih hk.2]

/-- Values of one metric name absent from a collection (empty when absent). -/
def entryValues (ms : List (String × MetricData)) (k : String) : List Sample :=
  match findEntry ms k with
  | some d => d.values
  | none => []

theorem metricValues_foldl_mergeInto (ms : List (String × MetricData)) (acc : Metrics)
    (hp : acc.pfx = none) (hl : acc.labels = [])
    (hnd : (ms.map (fun e => e.1)).Nodup) (k : String) :
    metricValues (ms.foldl mergeInto acc) k = metricValues acc k ++ entryValues ms k := by
  induction ms generalizing acc with
  | nil => simp [entryValues, findEntry]
  | cons p rest ih =>
      obtain ⟨n, d⟩ := p
      simp only [List.map, List.nodup_cons] at hnd
      simp only [List.foldl]
      rw [ih (mergeInto acc (n, d)) (by rw [mergeInto_pfx, hp]) (by rw [mergeInto_labels, hl]) hnd.2]
      rw [metricValues_mergeInto acc n d hp hl k]
      by_cases hk : k = n
      · subst hk
        have hrest : findEntry rest k = none := by
          apply findEntry_eq_none_of_not_mem
          simpa using hnd.1
        simp [entryValues, findEntry, hrest]
      · simp [entryValues, findEntry, hk, Ne.symm hk]

/-- Help/type of one metric name in a record list (first record wins). -/
def entryHelpType (ms : List (String × MetricData)) (k : String) : Option (String × String) :=
  (findEntry ms k).map (fun d => (d.help, d.type))

theorem metricHelpType_foldl_mergeInto (ms : List (String × MetricData)) (acc : Metrics)
    (hp : acc.pfx = none)
    (hne : ∀ e ∈ ms, e.2.values.length ≠ 0) (k : String) :
    metricHelpType (ms.foldl mergeInto acc) k =
      match metricHelpType acc k with
      | some x => some x
      | none => entryHelpType ms k := by
  induction ms generalizing acc with
  | nil =>
      cases hacc : metricHelpType acc k <;> simp [hacc, entryHelpType, findEntry]
  | cons p rest ih =>
      obtain ⟨n, d⟩ := p
      have hdne : d.values.length ≠ 0 := hne (n, d) (by simp)
      simp only [List.foldl]
      rw [ih (mergeInto acc (n, d)) (by rw [mergeInto_pfx, hp])
        (fun e he => hne e (List.mem_cons_of_mem _ he))]
      rw [metricHelpType_mergeInto acc n d hp k]
      by_cases hk : k = n
      · subst hk
        cases hacc : metricHelpType acc k <;>
          simp [hacc, hdne, entryHelpType, findEntry]
      · cases hacc : metricHelpType acc k <;>
          simp [hacc, hk, Ne.symm hk, entryHelpType, findEntry]

theorem mergeColl_pfx (acc item : Metrics) : (mergeColl acc item).pfx = acc.pfx := by
  unfold mergeColl
  induction item.metrics generalizing acc with
  | nil => rfl
  | cons e rest ih => simp [List.foldl, ih, mergeInto_pfx]

theorem mergeColl_labels (acc item : Metrics) : (mergeColl acc item).labels = acc.labels := by
  unfold mergeColl
  induction item.metrics generalizing acc with
  | nil => rfl
  | cons e rest ih => simp [List.foldl, ih, mergeInto_labels]

/-- Merging one collection into an unprefixed, unlabeled accumulator appends,
per metric name, exactly that collection's samples in order. -/
theorem metricValues_mergeColl (acc item : Metrics)
    (hp : acc.pfx = none) (hl : acc.labels = []) (hw : Wf item) (k : String) :
    metricValues (mergeColl acc item) k = metricValues acc k ++ metricValues item k := by
  unfold mergeColl
  rw [metricValues_foldl_mergeInto item.metrics acc hp hl hw.1 k]
  rfl

theorem metricHelpType_mergeColl (acc item : Metrics)
    (hp : acc.pfx = none) (hw : Wf item) (k : String) :
    metricHelpType (mergeColl acc item) k =
      match metricHelpType acc k with
      | some x => some x
      | none => metricHelpType item k := by
  unfold mergeColl
  rw [metricHelpType_foldl_mergeInto item.metrics acc hp hw.2 k]
  rfl

/-- Concatenation, in input order, of the input collections' sample lists for
one metric name. -/
def concatValues (l : List Metrics) (k : String) : List Sample :=
  match l with
  | [] => []
  | m :: rest => metricValues m k ++ concatValues rest k

/-- Help/type of one metric name across input collections: the first
collection defining the name wins. -/
def firstHelpType (l : List Metrics) (k : String) : Option (String × String) :=
  match l with
  | [] => none
  | m :: rest =>
      match metricHelpType m k with
      | some x => some x
      | none => firstHelpType rest k

theorem metricValues_foldl_mergeColl (l : List Metrics) (acc : Metrics)
    (hp : acc.pfx = none) (hl : acc.labels = [])
    (hw : ∀ m ∈ l, Wf m) (k : String) :
    metricValues (l.foldl mergeColl acc) k = metricValues acc k ++ concatValues l k := by
  induction l generalizing acc with
  | nil => simp [concatValues]
  | cons m rest ih =>
      simp only [List.foldl]
      rw [ih (mergeColl acc m) (by rw [mergeColl_pfx, hp]) (by rw [mergeColl_labels, hl])
        (fun m2 hm2 => hw m2 (List.mem_cons_of_mem _ hm2))]
      rw [metricValues_mergeColl acc m hp hl (hw m (by simp)) k]
      simp [concatValues]

theorem metricHelpType_foldl_mergeColl (l : List Metrics) (acc : Metrics)
    (hp : acc.pfx = none)
    (hw : ∀ m ∈ l, Wf m) (k : String) :
    metricHelpType (l.foldl mergeColl acc) k =
      match metricHelpType acc k with
      | some x => some x
      | none => firstHelpType l k := by
  induction l generalizing acc with
  | nil => cases hacc : metricHelpType acc k <;> simp [hacc, firstHelpType]
  | cons m rest ih =>
      simp only [List.foldl]
      rw [ih (mergeColl acc m) (by rw [mergeColl_pfx, hp])
        (fun m2 hm2 => hw m2 (List.mem_cons_of_mem _ hm2))]
      rw [metricHelpType_mergeColl acc m hp (hw m (by simp)) k]
      cases hacc : metricHelpType acc k <;>
        cases hm : metricHelpType m k <;> simp [hacc, hm, firstHelpType]

/-- Per metric name, `Metrics.merge` concatenates the input collections'
sample lists in input order. -/
theorem metricValues_merge (l : List Metrics) (hw : ∀ m ∈ l, Wf m) (k : String) :
    metricValues (Metrics.merge l) k = concatValues l k := by
  unfold Metrics.merge
  rw [metricValues_foldl_mergeColl l emptyMetrics rfl rfl hw k]
  simp [metricValues, Metrics.find?, emptyMetrics, findEntry]

/-- Per metric name, `Metrics.merge` takes help and type from the first input
collection that defines the name. -/
theorem metricHelpType_merge (l : List Metrics) (hw : ∀ m ∈ l, Wf m) (k : String) :
    metricHelpType (Metrics.merge l) k = firstHelpType l k := by
  unfold Metrics.merge
  rw [metricHelpType_foldl_mergeColl l emptyMetrics rfl hw k]
  simp [metricHelpType, Metrics.find?, emptyMetrics, findEntry]

/-- Concrete well-formed collection used to instantiate merge theorems. -/
def wmA : Metrics :=
  ⟨some "shelly", [], [("m1", ⟨"h1", "gauge", [⟨[], Json.num 1⟩]⟩)]⟩

/-- Second concrete well-formed collection used to instantiate merge theorems. -/
def wmB : Metrics :=
  ⟨none, [], [("m1", ⟨"h2", "counter", [⟨[("x", Json.str "y")], Json.num 2⟩]⟩),
              ("m2", ⟨"", "gauge", [⟨[], Json.bool true⟩]⟩)]⟩

/-- C2: `Metrics.merge` of the empty list is the empty collection; merge of a
single collection is observationally equal to it (same per-name sample lists,
hence same metric names and total counts, and same help/type); and merge of
two collections concatenates, per metric name, the two sample lists in input
order with their original labels and no deduplication, the per-name length
being the sum of the inputs' lengths, with help/type taken from the first
input collection that defines the name. -/
theorem C2_merge_algebra (a b : Metrics) (ha : Wf a) (hb : Wf b) :
    Metrics.merge [] = emptyMetrics ∧
    (∀ k, metricValues (Metrics.merge [a]) k = metricValues a k) ∧
    (∀ k, metricHelpType (Metrics.merge [a]) k = metricHelpType a k) ∧
    (∀ k, metricValues (Metrics.merge [a, b]) k =
      metricValues a k ++ metricValues b k) ∧
    (∀ k, (metricValues (Metrics.merge [a, b]) k).length =
      (metricValues a k).length + (metricValues b k).length) ∧
    (∀ k, metricHelpType (Metrics.merge [a, b]) k =
      match metricHelpType a k with
      | some x => some x
      | none => metricHelpType b k) := by
  have hwa : ∀ m ∈ [a], Wf m := by
    intro m hm
    simp only [List.mem_singleton] at hm
    rw [hm]
    exact ha
  have hwab : ∀ m ∈ [a, b], Wf m := by
    intro m hm
    simp only [List.mem_cons, List.mem_singleton] at hm
    rcases hm with hm | hm | hm
    · rw [hm]; exact ha
    · rw [hm]; exact hb
    · cases hm
  refine ⟨rfl, ?_, ?_, ?_, ?_, ?_⟩
  · intro k
    rw [metricValues_merge [a] hwa k]
    simp [concatValues]
  · intro k
    rw [metricHelpType_merge [a] hwa k]
    cases h : metricHelpType a k <;> simp [firstHelpType, h]
  · intro k
    rw [metricValues_merge [a, b] hwab k]
    simp [concatValues]
  · intro k
    rw [metricValues_merge [a, b] hwab k]
    simp [concatValues]
  · intro k
    rw [metricHelpType_merge [a, b] hwab k]
    cases h1 : metricHelpType a k <;> cases h2 : metricHelpType b k <;>
      simp [firstHelpType, h1, h2]

/-- Witness for C2 at two concrete collections. -/
theorem C2_merge_algebra_witness :
    metricValues (Metrics.merge [wmA, wmB]) "m1" =
      metricValues wmA "m1" ++ metricValues wmB "m1" :=
  (C2_merge_algebra wmA wmB (by decide) (by decide)).2.2.2.1 "m1"

/-- C6: a call to `add` stores a sample whose label set is the collection
labels merged with the per-call labels, and on any key collision the per-call
value overrides the collection-level one. -/
theorem C6_label_precedence (m : Metrics) (metric : String) (v : Json)
    (l : Labels) (h t : String) :
    metricValues (m.add metric v l h t) (prefName m.pfx metric) =
      metricValues m (prefName m.pfx metric) ++ [⟨dictMerge m.labels l, v⟩] ∧
    (∀ k, dictLookup (dictMerge m.labels l) k =
      match dictLookup l k with
      | some v2 => some v2
      | none => dictLookup m.labels k) := by
  constructor
  · rw [metricValues_add]
    simp
  · intro k
    exact dictLookup_dictMerge m.labels l k

/-- C7: the first `add` for a metric name records that call's help and type;
any further `add` with the same name keeps the recorded help/type unchanged
and appends exactly one sample, and no other metric name is touched. -/
theorem C7_first_write_wins (m : Metrics) (metric : String) (v : Json)
    (l : Labels) (h t : String) :
    metricHelpType (m.add metric v l h t) (prefName m.pfx metric) =
      some ((metricHelpType m (prefName m.pfx metric)).getD (h, t)) ∧
    metricValues (m.add metric v l h t) (prefName m.pfx metric) =
      metricValues m (prefName m.pfx metric) ++ [⟨dictMerge m.labels l, v⟩] ∧
    (∀ k, k ≠ prefName m.pfx metric → (m.add metric v l h t).find? k = m.find? k) := by
  refine ⟨?_, ?_, ?_⟩
  · rw [metricHelpType_add]
    simp
  · rw [metricValues_add]
    simp
  · intro k hk
    rw [find?_add]
    simp [hk]

/-- Witness for C7: on a collection that already holds the metric, a second
add keeps the first help/type, appends one sample, and leaves the other
metric untouched. -/
theorem C7_first_write_wins_witness :
    (wmB.add "m1" (Json.num 3) [] "ignored help" "gauge").find? "m2" = wmB.find? "m2" :=
  (C7_first_write_wins wmB "m1" (Json.num 3) [] "ignored help" "gauge").2.2 "m2" (by decide)

/-- One recorded call to `Metrics.add`, for reasoning about sequences of adds. -/
structure AddCall where
  metric : String
  value : Json
  labels : Labels
  help : String
  type : String

/-- Replay a sequence of `add` calls on a collection. -/
def applyAdds (m : Metrics) (calls : List AddCall) : Metrics :=
  calls.foldl (fun a c => a.add c.metric c.value c.labels c.help c.type) m

/-- C10: `add` never mutates the collection-level label dict nor the per-call
labels: under any sequence of later add calls the collection labels (and name
pfx) are invariant, and every sample list already present is preserved as a
prefix, its samples' label sets unchanged; each stored sample's label dict is
freshly built by the merge, as stated in the single-step characterization. -/
theorem C10_no_mutation (m : Metrics) (calls : List AddCall) :
    (applyAdds m calls).pfx = m.pfx ∧
    (applyAdds m calls).labels = m.labels ∧
    (∀ k, ∃ suffix, metricValues (applyAdds m calls) k = metricValues m k ++ suffix) := by
  induction calls generalizing m with
  | nil =>
      exact ⟨rfl, rfl, fun k => ⟨[], by simp [applyAdds]⟩⟩
  | cons c rest ih =>
      obtain ⟨h1, h2, h3⟩ := ih (m.add c.metric c.value c.labels c.help c.type)
      have hstep : applyAdds m (c :: rest) =
          applyAdds (m.add c.metric c.value c.labels c.help c.type) rest := rfl
      refine ⟨by rw [hstep, h1, add_pfx], by rw [hstep, h2, add_labels], ?_⟩
      intro k
      obtain ⟨suf, hsuf⟩ := h3 k
      rw [hstep, hsuf, metricValues_add]
      by_cases hk : k = prefName m.pfx c.metric
      · exact ⟨[⟨dictMerge m.labels c.labels, c.value⟩] ++ suf, by simp [hk]⟩
      · exact ⟨suf, by simp [hk]⟩

/-- The synthesized down collection built in `Static.on_get` when probing a
target raises `ShellyException`: `Metrics('shelly', \x7b'name': target\x7d)` with a
single `down` sample of value `True`. -/
def downMetrics (target : String) : Metrics :=
  Metrics.add ⟨some "shelly", [("name", Json.str target)], []⟩ "down" (Json.bool true) []
    "Shelly can\x27t be reached" "gauge"

/-- Per-target loop of `Static.on_get`: each static target is probed live
(`Shelly(...)` then `get_metrics()`, abstracted here as one probe call whose
result is the produced collection or the raised exception); `ShellyException`
is caught and degraded to the down collection, while any other exception
aborts the whole handler. -/
def collectTargets (probe : String → Except PyErr Metrics) :
    List String → Except PyErr (List Metrics)
  | [] => Except.ok []
  | t :: rest =>
      match probe t with
      | Except.ok m =>
          match collectTargets probe rest with
          | Except.ok ms => Except.ok (m :: ms)
          | Except.error e => Except.error e
      | Except.error (PyErr.shelly _) =>
          match collectTargets probe rest with
          | Except.ok ms => Except.ok (downMetrics t :: ms)
          | Except.error e => Except.error e
      | Except.error e => Except.error e

/-- Persisted-store loop of `Static.on_get`: every saved entry whose key is
not a static target is appended, in store order. -/
def persistedExtras (targets : List String) :
    List (String × Metrics) → List Metrics
  | [] => []
  | (t, m) :: rest =>
      if t ∈ targets then persistedExtras targets rest
      else m :: persistedExtras targets rest

/-- The `/metrics` handler `Static.on_get`: probe all static targets
(degrading `ShellyException` to a down collection), append the persisted
entries not shadowed by a static target, and merge. `Except.ok` is the 200
response; `Except.error` is an exception escaping the handler. -/
def staticOnGet (targets : List String) (probe : String → Except PyErr Metrics)
    (store : List (String × Metrics)) : Except PyErr Metrics :=
  match collectTargets probe targets with
  | Except.ok live => Except.ok (Metrics.merge (live ++ persistedExtras targets store))
  | Except.error e => Except.error e

/-- A probe outcome the static loop handles without propagating: a
successful collection or a `ShellyException`. -/
def isHandled (r : Except PyErr Metrics) : Bool :=
  match r with
  | Except.ok _ => true
  | Except.error (PyErr.shelly _) => true
  | Except.error _ => false

/-- The collection the static loop contributes for one target: the live
collection on success, the down collection on `ShellyException`. -/
def liveOr (probe : String → Except PyErr Metrics) (t : String) : Metrics :=
  match probe t with
  | Except.ok m => m
  | Except.error _ => downMetrics t

theorem collectTargets_ok (probe : String → Except PyErr Metrics)
    (targets : List String) (hall : ∀ t ∈ targets, isHandled (probe t) = true) :
    collectTargets probe targets = Except.ok (targets.map (liveOr probe)) := by
  induction targets with
  | nil => rfl
  | cons t rest ih =>
      have hht := hall t (by simp)
      have hrest := ih (fun t2 ht2 => hall t2 (List.mem_cons_of_mem _ ht2))
      rcases hp : probe t with e | m
      · rcases e with msg | kk | _ | _ <;>
          simp [isHandled, hp] at hht <;>
            simp [collectTargets, hp, hrest, List.map, liveOr]
      · simp [collectTargets, hp, hrest, List.map, liveOr]

theorem concatValues_append (l1 l2 : List Metrics) (k : String) :
    concatValues (l1 ++ l2) k = concatValues l1 k ++ concatValues l2 k := by
  induction l1 with
  | nil => simp [concatValues]
  | cons m rest ih => simp [concatValues, ih]

theorem persistedExtras_mem (targets : List String) (store : List (String × Metrics))
    (m : Metrics) (hm : m ∈ persistedExtras targets store) :
    ∃ t, (t, m) ∈ store ∧ t ∉ targets := by
  induction store with
  | nil => cases hm
  | cons p rest ih =>
      obtain ⟨t2, m2⟩ := p
      by_cases ht : t2 ∈ targets
      · simp only [persistedExtras, if_pos ht] at hm
        obtain ⟨t3, h3, h4⟩ := ih hm
        exact ⟨t3, List.mem_cons_of_mem _ h3, h4⟩
      · simp only [persistedExtras, if_neg ht] at hm
        rw [List.mem_cons] at hm
        rcases hm with hm1 | hm2
        · exact ⟨t2, by simp [hm1], ht⟩
        · obtain ⟨t3, h3, h4⟩ := ih hm2
          exact ⟨t3, List.mem_cons_of_mem _ h3, h4⟩

theorem persistedExtras_eq_filter (targets : List String)
    (store : List (String × Metrics)) :
    persistedExtras targets store =
      (store.filter (fun p => decide (p.1 ∉ targets))).map (fun p => p.2) := by
  induction store with
  | nil => rfl
  | cons p rest ih =>
      obtain ⟨t, m⟩ := p
      by_cases ht : t ∈ targets
      · simp [persistedExtras, List.filter, ht, ih]
      · simp [persistedExtras, List.filter, ht, ih]

/-- Characterization of a successful `/metrics` response: per metric name,
its samples are exactly those of the static targets' live-or-down
collections, in target order, followed by those of the persisted entries not
keyed by a static target, in store order. -/
theorem staticOnGet_values (targets : List String)
    (probe : String → Except PyErr Metrics) (store : List (String × Metrics))
    (hall : ∀ t ∈ targets, isHandled (probe t) = true)
    (hwlive : ∀ t ∈ targets, Wf (liveOr probe t))
    (hwstore : ∀ p ∈ store, Wf p.2) (k : String) :
    staticOnGet targets probe store =
      Except.ok (Metrics.merge (targets.map (liveOr probe) ++ persistedExtras targets store)) ∧
    metricValues (Metrics.merge (targets.map (liveOr probe) ++ persistedExtras targets store)) k =
      concatValues (targets.map (liveOr probe)) k ++
      concatValues (persistedExtras targets store) k := by
  constructor
  · unfold staticOnGet
    rw [collectTargets_ok probe targets hall]
  · rw [metricValues_merge _ ?_ k]
    · exact concatValues_append _ _ k
    · intro m hm
      rcases List.mem_append.mp hm with hm | hm
      · obtain ⟨t, ht, hmap⟩ := List.mem_map.mp hm
        rw [← hmap]
        exact hwlive t ht
      · obtain ⟨t, hts, _⟩ := persistedExtras_mem targets store m hm
        exact hwstore (t, m) hts

/-- C1: on the bulk `/metrics` endpoint, a persisted entry keyed by a static
target is excluded from the merged result: with static target `X` probed live
and succeeding with collection `mX` and a persisted entry `(X, pX)` in the
store, the response's samples per metric name come exactly from the static
targets' live collections (for `X`, exactly `mX`) plus exactly those
persisted entries whose key is not in the static list — so the persisted `X`
entry contributes nothing and every persisted entry keyed outside the static
list is included. -/
theorem C1_static_shadows_persisted (targets : List String)
    (probe : String → Except PyErr Metrics) (store : List (String × Metrics))
    (X : String) (mX pX : Metrics)
    (hXmem : X ∈ targets) (hXlive : probe X = Except.ok mX)
    (hXstore : (X, pX) ∈ store)
    (hall : ∀ t ∈ targets, isHandled (probe t) = true)
    (hwlive : ∀ t ∈ targets, Wf (liveOr probe t))
    (hwstore : ∀ p ∈ store, Wf p.2) :
    ∃ M, staticOnGet targets probe store = Except.ok M ∧
      liveOr probe X = mX ∧
      persistedExtras targets store =
        (store.filter (fun p => decide (p.1 ∉ targets))).map (fun p => p.2) ∧
      ∀ k, metricValues M k =
        concatValues (targets.map (liveOr probe)) k ++
        concatValues ((store.filter (fun p => decide (p.1 ∉ targets))).map (fun p => p.2)) k := by
  refine ⟨Metrics.merge (targets.map (liveOr probe) ++ persistedExtras targets store),
    (staticOnGet_values targets probe store hall hwlive hwstore "").1, ?_, ?_, ?_⟩
  · unfold liveOr
    rw [hXlive]
  · exact persistedExtras_eq_filter targets store
  · intro k
    rw [(staticOnGet_values targets probe store hall hwlive hwstore k).2]
    rw [persistedExtras_eq_filter targets store]

/-- Probe behavior used to instantiate the static-endpoint theorems: target
`X` answers, every other target times out. -/
def probeW : String → Except PyErr Metrics :=
  fun t => if t = "X" then Except.ok wmB else Except.error (PyErr.shelly "timeout")

/-- Witness for C1 at a concrete static list, probe and store. -/
theorem C1_static_shadows_persisted_witness :
    ∃ M, staticOnGet ["X"] probeW [("X", wmA), ("Y", wmB)] = Except.ok M ∧
      liveOr probeW "X" = wmB ∧
      persistedExtras ["X"] [("X", wmA), ("Y", wmB)] =
        (([("X", wmA), ("Y", wmB)]).filter (fun p => decide (p.1 ∉ ["X"]))).map (fun p => p.2) ∧
      ∀ k, metricValues M k =
        concatValues ((["X"]).map (liveOr probeW)) k ++
        concatValues ((([("X", wmA), ("Y", wmB)]).filter (fun p => decide (p.1 ∉ ["X"]))).map (fun p => p.2)) k :=
  C1_static_shadows_persisted ["X"] probeW [("X", wmA), ("Y", wmB)] "X" wmB wmA
    (by decide) rfl (List.Mem.head _) (by decide) (by decide) (by decide)

/-- Does a sample carry the label `name` with string value `X`? -/
def sampleHasName (s : Sample) (X : String) : Bool :=
  match dictLookup s.labels "name" with
  | some (Json.str v) => v == X
  | _ => false

/-- No sample anywhere in the collection is labeled `name=X`. -/
def collHasNoName (m : Metrics) (X : String) : Prop :=
  ∀ e ∈ m.metrics, ∀ s ∈ e.2.values, sampleHasName s X = false

instance (m : Metrics) (X : String) : Decidable (collHasNoName m X) := by
  unfold collHasNoName
  exact inferInstance

/-- Number of occurrences of a target name in the static target list. -/
def countKey (l : List String) (x : String) : Nat :=
  match l with
  | [] => 0
  | y :: rest => (if y = x then 1 else 0) + countKey rest x

theorem findEntry_mem (ms : List (String × MetricData)) (k : String) (d : MetricData)
    (hf : findEntry ms k = some d) : (k, d) ∈ ms := by
  induction ms with
  | nil => cases hf
  | cons p rest ih =>
      obtain ⟨n, d2⟩ := p
      by_cases hn : n = k
      · subst hn
        have hf2 : d2 = d := by
          simpa [findEntry] using hf
        simp [hf2]
      · simp only [findEntry, if_neg hn] at hf
        exact List.mem_cons_of_mem _ (ih hf)

theorem noName_filter (m : Metrics) (X : String) (hnn : collHasNoName m X) (k : String) :
    (metricValues m k).filter (fun s => sampleHasName s X) = [] := by
  rcases hf : m.find? k with _ | d
  · simp [metricValues, hf]
  · have hmem : (k, d) ∈ m.metrics := findEntry_mem m.metrics k d hf
    simp only [metricValues, hf]
    rw [List.filter_eq_nil_iff]
    intro s hs
    simp [hnn (k, d) hmem s hs]

/-- The down collection holds exactly one metric, `shelly_down`, with one
`True` sample labeled with the target's identity. -/
theorem downMetrics_values (X k : String) :
    metricValues (downMetrics X) k =
      if k = "shelly_down" then [⟨[("name", Json.str X)], Json.bool true⟩] else [] := by
  have hpn : prefName (some "shelly") "down" = "shelly_down" := rfl
  by_cases hk : k = "shelly_down"
  · subst hk
    rfl
  · simp [downMetrics, Metrics.add, metricValues, Metrics.find?, addEntries, findEntry,
      hpn, hk, Ne.symm hk]

theorem filter_live_zero (probe : String → Except PyErr Metrics) (X k : String)
    (targets : List String) (hcount : countKey targets X = 0)
    (hothers : ∀ t ∈ targets, t ≠ X → collHasNoName (liveOr probe t) X) :
    (concatValues (targets.map (liveOr probe)) k).filter (fun s => sampleHasName s X) = [] := by
  induction targets with
  | nil => rfl
  | cons t rest ih =>
      by_cases htx : t = X
      · exfalso
        simp only [countKey, if_pos htx] at hcount
        omega
      · have hrest : countKey rest X = 0 := by
          simp only [countKey, if_neg htx] at hcount
          omega
        simp only [List.map, concatValues]
        rw [List.filter_append]
        rw [noName_filter _ X (hothers t (by simp) htx) k]
        rw [ih hrest (fun t2 h2 hne => hothers t2 (List.mem_cons_of_mem _ h2) hne)]
        rfl

theorem filter_live_one (probe : String → Except PyErr Metrics) (X msg k : String)
    (targets : List String) (hcount : countKey targets X = 1)
    (hXfail : probe X = Except.error (PyErr.shelly msg))
    (hothers : ∀ t ∈ targets, t ≠ X → collHasNoName (liveOr probe t) X) :
    (concatValues (targets.map (liveOr probe)) k).filter (fun s => sampleHasName s X) =
      if k = "shelly_down" then [⟨[("name", Json.str X)], Json.bool true⟩] else [] := by
  induction targets with
  | nil => simp [countKey] at hcount
  | cons t rest ih =>
      simp only [List.map, concatValues]
      rw [List.filter_append]
      by_cases htx : t = X
      · subst htx
        have hrest : countKey rest t = 0 := by
          have heq : countKey (t :: rest) t = (if t = t then 1 else 0) + countKey rest t := rfl
          rw [heq, if_pos rfl] at hcount
          omega
        have hlive : liveOr probe t = downMetrics t := by
          unfold liveOr
          rw [hXfail]
        rw [hlive]
        rw [filter_live_zero probe t k rest hrest
          (fun t2 h2 hne => hothers t2 (List.mem_cons_of_mem _ h2) hne)]
        rw [downMetrics_values]
        by_cases hk : k = "shelly_down"
        · subst hk
          simp [sampleHasName, dictLookup]
        · simp [hk]
      · have hrest : countKey rest X = 1 := by
          simp only [countKey, if_neg htx] at hcount
          omega
        rw [noName_filter _ X (hothers t (by simp) htx) k]
        rw [ih hrest (fun t2 h2 hne => hothers t2 (List.mem_cons_of_mem _ h2) hne)]
        simp

theorem filter_store (X k : String) (l : List Metrics)
    (hl : ∀ m ∈ l, collHasNoName m X) :
    (concatValues l k).filter (fun s => sampleHasName s X) = [] := by
  induction l with
  | nil => rfl
  | cons m rest ih =>
      simp only [concatValues]
      rw [List.filter_append, noName_filter m X (hl m (by simp)) k,
        ih (fun m2 h2 => hl m2 (List.mem_cons_of_mem _ h2))]
      rfl

/-- C5: a `/metrics` request does not fail because one static target fails:
if exactly one static slot `X` raises `ShellyException` while every other
probe is handled, the endpoint still answers 200; per metric name the result
concatenates every target's live-or-down collection plus the non-shadowed
persisted entries (so all other targets' collections are included), and the
only sample in the whole response labeled `name=X` is the single synthesized
`shelly_down` sample with value `True`. -/
theorem C5_down_on_failure (targets : List String)
    (probe : String → Except PyErr Metrics) (store : List (String × Metrics))
    (X msg : String)
    (hXcount : countKey targets X = 1)
    (hXfail : probe X = Except.error (PyErr.shelly msg))
    (hall : ∀ t ∈ targets, isHandled (probe t) = true)
    (hwlive : ∀ t ∈ targets, Wf (liveOr probe t))
    (hwstore : ∀ p ∈ store, Wf p.2)
    (hothers : ∀ t ∈ targets, t ≠ X → collHasNoName (liveOr probe t) X)
    (hstore : ∀ p ∈ store, p.1 ∉ targets → collHasNoName p.2 X) :
    ∃ M, staticOnGet targets probe store = Except.ok M ∧
      (∀ k, metricValues M k =
        concatValues (targets.map (liveOr probe)) k ++
        concatValues (persistedExtras targets store) k) ∧
      (∀ k, (metricValues M k).filter (fun s => sampleHasName s X) =
        if k = "shelly_down"
        then [⟨[("name", Json.str X)], Json.bool true⟩]
        else []) := by
  refine ⟨_, (staticOnGet_values targets probe store hall hwlive hwstore "").1, ?_, ?_⟩
  · intro k
    exact (staticOnGet_values targets probe store hall hwlive hwstore k).2
  · intro k
    rw [(staticOnGet_values targets probe store hall hwlive hwstore k).2]
    rw [List.filter_append]
    rw [filter_live_one probe X msg k targets hXcount hXfail hothers]
    have hstores : ∀ m ∈ persistedExtras targets store, collHasNoName m X := by
      intro m hm
      obtain ⟨t, hts, htn⟩ := persistedExtras_mem targets store m hm
      exact hstore (t, m) hts htn
    rw [filter_store X k (persistedExtras targets store) hstores]
    simp

/-- Probe behavior where target `X` times out and target `Y` answers. -/
def probeW2 : String → Except PyErr Metrics :=
  fun t => if t = "Y" then Except.ok wmB else Except.error (PyErr.shelly "timeout")

/-- Witness for C5 at a concrete static list, failing probe and store. -/
theorem C5_down_on_failure_witness :
    ∃ M, staticOnGet ["X", "Y"] probeW2 [("Z", wmA)] = Except.ok M ∧
      (∀ k, metricValues M k =
        concatValues ((["X", "Y"]).map (liveOr probeW2)) k ++
        concatValues (persistedExtras ["X", "Y"] [("Z", wmA)]) k) ∧
      (∀ k, (metricValues M k).filter (fun s => sampleHasName s "X") =
        if k = "shelly_down"
        then [⟨[("name", Json.str "X")], Json.bool true⟩]
        else []) :=
  C5_down_on_failure ["X", "Y"] probeW2 [("Z", wmA)] "X" "timeout"
    (by decide) rfl (by decide) (by decide) (by decide) (by decide) (by decide)

/-- The local file backing the `MetricsFile` store: `none` when no file
exists at the path, otherwise the pickled mapping from device name to its
saved collection. -/
structure MetricsFS where
  content? : Option (List (String × Metrics))

/-- The constructor path `MetricsFile._init_file` (local file, no S3): if no
file exists at the path, an empty mapping is pickled to it; an existing file
is reused unchanged. -/
def initFile (fs : MetricsFS) : MetricsFS :=
  match fs.content? with
  | some _ => fs
  | none => ⟨some []⟩

/-- The method `MetricsFile.get_metrics` (local file): unpickle the whole
document; opening a missing file raises. -/
def getMetricsFS (fs : MetricsFS) : Except PyErr (List (String × Metrics)) :=
  match fs.content? with
  | some d => Except.ok d
  | none => Except.error PyErr.ioError

/-- Python dict assignment `d[k] = v`: replace in place, or append a new key. -/
def storeInsert : List (String × Metrics) → String → Metrics → List (String × Metrics)
  | [], k, v => [(k, v)]
  | (k2, m) :: rest, k, v =>
      if k2 = k then (k2, v) :: rest
      else (k2, m) :: storeInsert rest k v

/-- The method `MetricsFile.add_metrics(name, metrics)`: read the whole
document, set the entry, write the whole document back. -/
def addMetricsFS (fs : MetricsFS) (name : String) (m : Metrics) : Except PyErr MetricsFS :=
  match getMetricsFS fs with
  | Except.ok d => Except.ok ⟨some (storeInsert d name m)⟩
  | Except.error e => Except.error e

/-- Lookup of one device's saved collection in the persisted document. -/
def storeFind (d : List (String × Metrics)) (k : String) : Option Metrics :=
  match d with
  | [] => none
  | (k2, m) :: rest => if k2 = k then some m else storeFind rest k

theorem storeFind_storeInsert (d : List (String × Metrics)) (k : String)
    (v : Metrics) (k2 : String) :
    storeFind (storeInsert d k v) k2 = if k2 = k then some v else storeFind d k2 := by
  induction d with
  | nil =>
      by_cases hk : k2 = k
      · subst hk
        simp [storeInsert, storeFind]
      · simp [storeInsert, storeFind, hk, Ne.symm hk]
  | cons p rest ih =>
      obtain ⟨k3, m⟩ := p
      by_cases h3 : k3 = k
      · subst h3
        by_cases hk : k2 = k3
        · subst hk
          simp [storeInsert, storeFind]
        · simp [storeInsert, storeFind, hk, Ne.symm hk]
      · by_cases hk : k2 = k
        · have h32 : ¬ k3 = k2 := by
            rw [hk]
            exact h3
          rw [hk] at ih
          simp [storeInsert, storeFind, h3, h32, hk, ih]
        · by_cases h4 : k3 = k2
          · simp [storeInsert, storeFind, h3, h4, hk, ih]
          · simp [storeInsert, storeFind, h3, h4, hk, ih]

/-- C4: on an existing store, `save(id, snapshot)` (i.e. `add_metrics`) is a
whole-document read-modify-write after which `load()` returns a mapping that
holds `id` mapped to the snapshot and leaves every other key's entry
unchanged; and on a backing file that does not exist, initialization durably
writes an empty mapping, so the resource then exists and `load()` returns the
empty mapping. -/
theorem C4_store_roundtrip (fs : MetricsFS) (d : List (String × Metrics))
    (id : String) (s : Metrics) (hfs : fs.content? = some d) :
    (∃ fs2, addMetricsFS fs id s = Except.ok fs2 ∧
      getMetricsFS fs2 = Except.ok (storeInsert d id s) ∧
      storeFind (storeInsert d id s) id = some s ∧
      ∀ k, k ≠ id → storeFind (storeInsert d id s) k = storeFind d k) ∧
    (∀ fs0 : MetricsFS, fs0.content? = none →
      (initFile fs0).content? = some [] ∧ getMetricsFS (initFile fs0) = Except.ok []) := by
  constructor
  · refine ⟨⟨some (storeInsert d id s)⟩, ?_, rfl, ?_, ?_⟩
    · unfold addMetricsFS getMetricsFS
      rw [hfs]
    · rw [storeFind_storeInsert]
      simp
    · intro k hk
      rw [storeFind_storeInsert]
      simp [hk]
  · intro fs0 h0
    unfold initFile getMetricsFS
    rw [h0]
    exact ⟨rfl, rfl⟩

/-- Witness for C4 on a concrete one-entry store. -/
theorem C4_store_roundtrip_witness :
    (∃ fs2, addMetricsFS ⟨some [("Y", wmB)]⟩ "X" wmA = Except.ok fs2 ∧
      getMetricsFS fs2 = Except.ok (storeInsert [("Y", wmB)] "X" wmA) ∧
      storeFind (storeInsert [("Y", wmB)] "X" wmA) "X" = some wmA ∧
      ∀ k, k ≠ "X" → storeFind (storeInsert [("Y", wmB)] "X" wmA) k = storeFind [("Y", wmB)] k) ∧
    (∀ fs0 : MetricsFS, fs0.content? = none →
      (initFile fs0).content? = some [] ∧ getMetricsFS (initFile fs0) = Except.ok []) :=
  C4_store_roundtrip ⟨some [("Y", wmB)]⟩ [("Y", wmB)] "X" wmA rfl

/-- Indexing `j[k]` on a parsed JSON document: a missing key raises
`KeyError`, indexing a non-object raises `TypeError`. -/
def Json.index (j : Json) (k : String) : Except PyErr Json :=
  match j with
  | Json.obj fields =>
      match dictLookup fields k with
      | some v => Except.ok v
      | none => Except.error (PyErr.keyError k)
  | _ => Except.error PyErr.typeError

/-- Iterating a JSON value as a list, as in `enumerate(status['relays'])`. -/
def Json.asArr : Json → Except PyErr (List Json)
  | Json.arr xs => Except.ok xs
  | _ => Except.error PyErr.typeError

/-- Python truthiness of a JSON value, as in `if r['has_timer']:`. -/
def Json.truthy : Json → Bool
  | Json.null => false
  | Json.bool b => b
  | Json.num n => n != 0
  | Json.str s => s != ""
  | Json.arr xs => !xs.isEmpty
  | Json.obj fs => !fs.isEmpty

/-- Exact string match of the device type, as in `self.type == 'SHPLG-S'` and
the `getters` dict lookup. -/
def isType (ty : Json) (s : String) : Bool :=
  match ty with
  | Json.str t => t == s
  | _ => false

/-- Behavior of one device's HTTP API: for a path, the parsed JSON body or
the message of the `ShellyException` that `Shelly.api` raises on any
transport or JSON-decode failure. -/
abbrev DeviceApi := String → Except String Json

/-- The method `Shelly.api(path)` as seen by callers: a failure is always a
`ShellyException`. -/
def apiGet (api : DeviceApi) (path : String) : Except PyErr Json :=
  match api path with
  | Except.ok j => Except.ok j
  | Except.error s => Except.error (PyErr.shelly s)

/-- The collection `Metrics('shelly', self.labels)` opened by
`_get_metrics_base`: the `shelly` name prefix and the collection labels
`name` and `type` (no extra labels on these paths). -/
def baseInit (name : String) (ty : Json) : Metrics :=
  ⟨some "shelly", [("name", Json.str name), ("type", ty)], []⟩

/-- The eleven generic samples `_get_metrics_base` adds, in source order,
once the fields have been read from the `/status` document. -/
def baseBuild (name : String) (ty v1 v2 v3 v4 v5 v6 v7 v8 v9 v10 v11 : Json) : Metrics :=
  (((((((((((baseInit name ty).add
    "wifi_sta_connected" v1 [] "Current status of the WiFi connection (connected or not)" "gauge").add
    "cloud_enabled" v2 [] "Current cloud connection status (enabled or not)" "gauge").add
    "cloud_connected" v3 [] "Current cloud connection status (connected or not)" "gauge").add
    "mqtt_connected" v4 [] "MQTT connection status, when MQTT is enabled (connected or not)" "gauge").add
    "serial" v5 [] "Cloud serial number" "gauge").add
    "has_update" v6 [] "Whether an update is available" "gauge").add
    "ram_total" v7 [] "Total amount of system memory in bytes" "gauge").add
    "ram_free" v8 [] "Available amount of system memory in bytes" "gauge").add
    "fs_size" v9 [] "Total amount of the file system in bytes" "gauge").add
    "fs_free" v10 [] "Available amount of the file system in bytes" "gauge").add
    "uptime" v11 [] "Seconds elapsed since boot" "counter"

/-- The method `Shelly._get_metrics_base`: fetch `/status` and read the
generic fields in source order; the first missing field aborts the whole
probe with that access's error. -/
def getMetricsBase (name : String) (ty : Json) (api : DeviceApi) : Except PyErr Metrics :=
  match apiGet api "/status" with
  | Except.error e => Except.error e
  | Except.ok status =>
  match status.index "wifi_sta" with
  | Except.error e => Except.error e
  | Except.ok wifi =>
  match wifi.index "connected" with
  | Except.error e => Except.error e
  | Except.ok v1 =>
  match status.index "cloud" with
  | Except.error e => Except.error e
  | Except.ok cloud =>
  match cloud.index "enabled" with
  | Except.error e => Except.error e
  | Except.ok v2 =>
  match cloud.index "connected" with
  | Except.error e => Except.error e
  | Except.ok v3 =>
  match status.index "mqtt" with
  | Except.error e => Except.error e
  | Except.ok mqtt =>
  match mqtt.index "connected" with
  | Except.error e => Except.error e
  | Except.ok v4 =>
  match status.index "serial" with
  | Except.error e => Except.error e
  | Except.ok v5 =>
  match status.index "update" with
  | Except.error e => Except.error e
  | Except.ok upd =>
  match upd.index "has_update" with
  | Except.error e => Except.error e
  | Except.ok v6 =>
  match status.index "ram_total" with
  | Except.error e => Except.error e
  | Except.ok v7 =>
  match status.index "ram_free" with
  | Except.error e => Except.error e
  | Except.ok v8 =>
  match status.index "fs_size" with
  | Except.error e => Except.error e
  | Except.ok v9 =>
  match status.index "fs_free" with
  | Except.error e => Except.error e
  | Except.ok v10 =>
  match status.index "uptime" with
  | Except.error e => Except.error e
  | Except.ok v11 =>
    Except.ok (baseBuild name ty v1 v2 v3 v4 v5 v6 v7 v8 v9 v10 v11)

/-- Per-channel labels `\x7b'relay': str(i)\x7d`. -/
def relayLabels (i : Nat) : Labels := [("relay", Json.str (toString i))]

/-- The samples one relay-loop iteration adds: on/off, timer-armed, the three
timer details only when the timer is armed, and overpower. -/
def relayBuild (m : Metrics) (i : Nat) (ison ht : Json)
    (timer : Option (Json × Json × Json)) (op : Json) : Metrics :=
  let m2 := (m.add "relay_ison" ison (relayLabels i)
      "Whether the channel is turned ON or OFF" "gauge").add
    "relay_has_timer" ht (relayLabels i)
      "Whether a timer is currently armed for this channel" "gauge"
  let m3 :=
    match timer with
    | some (ts, td, tr) =>
        ((m2.add "relay_timer_started" ts (relayLabels i)
            "Unix timestamp of timer start; 0 if timer inactive or time not synced" "gauge").add
          "relay_timer_duration" td (relayLabels i) "Timer duration, s" "gauge").add
          "relay_timer_remaining" tr (relayLabels i)
            "If there is an active timer, shows seconds until timer elapses; 0 otherwise" "gauge"
    | none => m2
  m3.add "relay_overpower" op (relayLabels i) "" "gauge"

/-- One iteration of the relay loop in `_get_metrics_plug`: field accesses in
source order, the timer fields only read (and emitted) when `has_timer` is
truthy. -/
def relayStep (m : Metrics) (i : Nat) (r : Json) : Except PyErr Metrics :=
  match r.index "ison" with
  | Except.error e => Except.error e
  | Except.ok ison =>
  match r.index "has_timer" with
  | Except.error e => Except.error e
  | Except.ok ht =>
  if ht.truthy then
    match r.index "timer_started" with
    | Except.error e => Except.error e
    | Except.ok ts =>
    match r.index "timer_duration" with
    | Except.error e => Except.error e
    | Except.ok td =>
    match r.index "timer_remaining" with
    | Except.error e => Except.error e
    | Except.ok tr =>
    match r.index "overpower" with
    | Except.error e => Except.error e
    | Except.ok op => Except.ok (relayBuild m i ison ht (some (ts, td, tr)) op)
  else
    match r.index "overpower" with
    | Except.error e => Except.error e
    | Except.ok op => Except.ok (relayBuild m i ison ht none op)

/-- The loop `for i, r in enumerate(status['relays'])`. -/
def relayLoop (m : Metrics) (i : Nat) : List Json → Except PyErr Metrics
  | [] => Except.ok m
  | r :: rest =>
      match relayStep m i r with
      | Except.error e => Except.error e
      | Except.ok m2 => relayLoop m2 (i + 1) rest

/-- Per-meter labels `\x7b'meter': str(i)\x7d`. -/
def meterLabels (i : Nat) : Labels := [("meter", Json.str (toString i))]

/-- One iteration of the meter loop in `_get_metrics_plug` (the overpower
sample is commented out in the source). -/
def meterStep (m : Metrics) (i : Nat) (r : Json) : Except PyErr Metrics :=
  match r.index "power" with
  | Except.error e => Except.error e
  | Except.ok pw =>
  match r.index "is_valid" with
  | Except.error e => Except.error e
  | Except.ok iv =>
  match r.index "total" with
  | Except.error e => Except.error e
  | Except.ok tot =>
    Except.ok (((m.add "meter_power" pw (meterLabels i)
        "Current real AC power being drawn, in Watts" "gauge").add
      "meter_is_valid" iv (meterLabels i) "Whether power metering self-checks OK" "gauge").add
      "meter_total" tot (meterLabels i)
        "Total energy consumed by the attached electrical appliance in Watt-minute" "gauge")

/-- The loop `for i, m in enumerate(status['meters'])`. -/
def meterLoop (m : Metrics) (i : Nat) : List Json → Except PyErr Metrics
  | [] => Except.ok m
  | r :: rest =>
      match meterStep m i r with
      | Except.error e => Except.error e
      | Except.ok m2 => meterLoop m2 (i + 1) rest

/-- Relay and meter loops of `_get_metrics_plug`, run after the settings
samples. -/
def plugTail (m : Metrics) (status : Json) : Except PyErr Metrics :=
  match status.index "relays" with
  | Except.error e => Except.error e
  | Except.ok relays =>
  match relays.asArr with
  | Except.error e => Except.error e
  | Except.ok rl =>
  match relayLoop m 0 rl with
  | Except.error e => Except.error e
  | Except.ok m2 =>
  match status.index "meters" with
  | Except.error e => Except.error e
  | Except.ok meters =>
  match meters.asArr with
  | Except.error e => Except.error e
  | Except.ok ml => meterLoop m2 0 ml

/-- The method `Shelly._get_metrics_plug`: base samples, overpower threshold,
the four PlugS-only samples when the type is exactly `SHPLG-S`, then the
relay and meter loops. -/
def getMetricsPlug (name : String) (ty : Json) (api : DeviceApi) : Except PyErr Metrics :=
  match getMetricsBase name ty api with
  | Except.error e => Except.error e
  | Except.ok m =>
  match apiGet api "/settings" with
  | Except.error e => Except.error e
  | Except.ok settings =>
  match apiGet api "/status" with
  | Except.error e => Except.error e
  | Except.ok status =>
  match settings.index "max_power" with
  | Except.error e => Except.error e
  | Except.ok mp =>
  if isType ty "SHPLG-S" then
    match settings.index "led_status_disable" with
    | Except.error e => Except.error e
    | Except.ok lsd =>
    match settings.index "led_power_disable" with
    | Except.error e => Except.error e
    | Except.ok lpd =>
    match status.index "temperature" with
    | Except.error e => Except.error e
    | Except.ok tmp =>
    match status.index "overtemperature" with
    | Except.error e => Except.error e
    | Except.ok ot =>
      plugTail (((((m.add "max_power" mp [] "Overpower threshold in Watts" "gauge").add
        "led_status_disable" lsd [] "Whether LED indication for connection status is enabled" "gauge").add
        "led_power_disable" lpd [] "Whether LED indication for output status is enabled" "gauge").add
        "temperature" tmp [] "internal device temperature in Â°C" "gauge").add
        "overtemperature" ot [] "true when device has overheated" "gauge") status
  else
    plugTail (m.add "max_power" mp [] "Overpower threshold in Watts" "gauge") status

/-- Per-unit labels `\x7b'thermostats': str(i)\x7d`. -/
def thermoLabels (i : Nat) : Labels := [("thermostats", Json.str (toString i))]

/-- One iteration of the thermostat loop in `_get_metrics_trv` (the two unit
samples are commented out in the source). -/
def thermoStep (m : Metrics) (i : Nat) (r : Json) : Except PyErr Metrics :=
  match r.index "pos" with
  | Except.error e => Except.error e
  | Except.ok pos =>
  match r.index "target_t" with
  | Except.error e => Except.error e
  | Except.ok tt =>
  match tt.index "enabled" with
  | Except.error e => Except.error e
  | Except.ok en =>
  match tt.index "value" with
  | Except.error e => Except.error e
  | Except.ok tv =>
  match r.index "tmp" with
  | Except.error e => Except.error e
  | Except.ok tmp =>
  match tmp.index "value" with
  | Except.error e => Except.error e
  | Except.ok mv =>
  match tmp.index "is_valid" with
  | Except.error e => Except.error e
  | Except.ok iv =>
  match r.index "schedule" with
  | Except.error e => Except.error e
  | Except.ok sch =>
  match r.index "schedule_profile" with
  | Except.error e => Except.error e
  | Except.ok sp =>
  match r.index "boost_minutes" with
  | Except.error e => Except.error e
  | Except.ok bm =>
    Except.ok ((((((((m.add "pos" pos (thermoLabels i)
        "Position of thermostat pin" "gauge").add
      "thermostat_enabled" en (thermoLabels i) "Whether the thermostat is enabled" "gauge").add
      "thermostat_target_t" tv (thermoLabels i) "Thermostat target temperature" "gauge").add
      "thermostat_measured_temperature" mv (thermoLabels i)
        "Thermostat measured temperature" "gauge").add
      "thermostat_measured_valid" iv (thermoLabels i)
        "Whether the temperature measurement is valid" "gauge").add
      "thermostat_is_scheduled" sch (thermoLabels i)
        "Whether the thermostat is following a schedule" "gauge").add
      "thermostat_schedule_profile" sp (thermoLabels i)
        "Current thermostat profile" "gauge").add
      "thermostat_boost_minutes" bm (thermoLabels i)
        "Length of initial warm-up boost, in minutes" "gauge")

/-- The loop `for i, r in enumerate(status['thermostats'])`. -/
def thermoLoop (m : Metrics) (i : Nat) : List Json → Except PyErr Metrics
  | [] => Except.ok m
  | r :: rest =>
      match thermoStep m i r with
      | Except.error e => Except.error e
      | Except.ok m2 => thermoLoop m2 (i + 1) rest

/-- The method `Shelly._get_metrics_trv`. -/
def getMetricsTrv (name : String) (ty : Json) (api : DeviceApi) : Except PyErr Metrics :=
  match getMetricsBase name ty api with
  | Except.error e => Except.error e
  | Except.ok m =>
  match apiGet api "/settings" with
  | Except.error e => Except.error e
  | Except.ok _settings =>
  match apiGet api "/status" with
  | Except.error e => Except.error e
  | Except.ok status =>
  match status.index "bat" with
  | Except.error e => Except.error e
  | Except.ok bat =>
  match bat.index "value" with
  | Except.error e => Except.error e
  | Except.ok bv =>
  match bat.index "voltage" with
  | Except.error e => Except.error e
  | Except.ok bvolt =>
  match status.index "charger" with
  | Except.error e => Except.error e
  | Except.ok ch =>
  match status.index "thermostats" with
  | Except.error e => Except.error e
  | Except.ok th =>
  match th.asArr with
  | Except.error e => Except.error e
  | Except.ok tl =>
    thermoLoop (((m.add "bat_charge" bv [] "Percentage of battery level" "gauge").add
      "bat_voltage" bvolt [] "Battery voltage" "gauge").add
      "bat_charger" ch [] "Boolean to show whether a charger is plugged in" "gauge") 0 tl

/-- The method `Shelly._get_metrics_ht`. -/
def getMetricsHt (name : String) (ty : Json) (api : DeviceApi) : Except PyErr Metrics :=
  match getMetricsBase name ty api with
  | Except.error e => Except.error e
  | Except.ok m =>
  match apiGet api "/settings" with
  | Except.error e => Except.error e
  | Except.ok _settings =>
  match apiGet api "/status" with
  | Except.error e => Except.error e
  | Except.ok status =>
  match status.index "bat" with
  | Except.error e => Except.error e
  | Except.ok bat =>
  match bat.index "value" with
  | Except.error e => Except.error e
  | Except.ok bv =>
  match bat.index "voltage" with
  | Except.error e => Except.error e
  | Except.ok bvolt =>
  match status.index "hum" with
  | Except.error e => Except.error e
  | Except.ok hum =>
  match hum.index "value" with
  | Except.error e => Except.error e
  | Except.ok hv =>
  match hum.index "is_valid" with
  | Except.error e => Except.error e
  | Except.ok hiv =>
  match status.index "tmp" with
  | Except.error e => Except.error e
  | Except.ok tmp =>
  match tmp.index "value" with
  | Except.error e => Except.error e
  | Except.ok tv =>
  match tmp.index "is_valid" with
  | Except.error e => Except.error e
  | Except.ok tiv =>
    Except.ok ((((((m.add "bat_charge" bv [] "Percentage of battery level" "gauge").add
      "bat_voltage" bvolt [] "Battery voltage" "gauge").add
      "humidity" hv [] "Air humidity, in %rH" "gauge").add
      "humidity_valid" hiv [] "Whether the humidity measurement is valid" "gauge").add
      "temperature" tv [] "Air temperature" "gauge").add
      "temperature_valid" tiv [] "Whether the temperature measurement is valid" "gauge")

/-- The dispatch in `Shelly.get_metrics`: exact match of the reported type
against the getter table, any other type falls back to base-only extraction. -/
def shellyGetMetrics (name : String) (ty : Json) (api : DeviceApi) : Except PyErr Metrics :=
  if isType ty "SHPLG-S" then getMetricsPlug name ty api
  else if isType ty "SHTRV-01" then getMetricsTrv name ty api
  else if isType ty "SHHT-1" then getMetricsHt name ty api
  else getMetricsBase name ty api

/-- One whole probe, `Shelly(...)` construction plus `get_metrics()`: a
missing target raises `ShellyException`, the type is read from the `/shelly`
document (`['type']` can raise `KeyError`), then the dispatched getter runs.
Returns the device name together with its collection. -/
def shellyPipeline (target? : Option String) (api : String → DeviceApi) :
    Except PyErr (String × Metrics) :=
  match target? with
  | none => Except.error (PyErr.shelly "\x27name\x27 cannot be empty")
  | some name =>
  match apiGet (api name) "/shelly" with
  | Except.error e => Except.error e
  | Except.ok sh =>
  match sh.index "type" with
  | Except.error e => Except.error e
  | Except.ok ty =>
  match shellyGetMetrics name ty (api name) with
  | Except.error e => Except.error e
  | Except.ok m => Except.ok (name, m)

/-- HTTP outcome of a `/probe` request: a 200 with the collection, a 400 with
the `ShellyException` text, or an exception escaping the handler (a generic
server error, not a 400). -/
inductive ProbeResponse where
  | ok : Metrics → ProbeResponse
  | badRequest : String → ProbeResponse
  | serverError : PyErr → ProbeResponse

/-- Is the response the 400 branch of `Prober.on_get`? -/
def isBadRequest : ProbeResponse → Bool
  | ProbeResponse.badRequest _ => true
  | _ => false

/-- The `/probe` handler `Prober.on_get`: run the probe; only on the exact
save parameter string `true` add the `probetime` counter and write the
snapshot into the store before responding; `ShellyException` is caught as a
400 with its text; any other exception escapes with the store untouched. -/
def proberOnGet (target? save? : Option String) (api : String → DeviceApi)
    (now : Int) (fs : MetricsFS) : ProbeResponse × MetricsFS :=
  match shellyPipeline target? api with
  | Except.error (PyErr.shelly s) => (ProbeResponse.badRequest s, fs)
  | Except.error e => (ProbeResponse.serverError e, fs)
  | Except.ok (name, m) =>
      if save? = some "true" then
        let m2 := m.add "probetime" (Json.num now) []
          "Unixtime this target was probed and saved." "counter"
        match addMetricsFS fs name m2 with
        | Except.ok fs2 => (ProbeResponse.ok m2, fs2)
        | Except.error e => (ProbeResponse.serverError e, fs)
      else (ProbeResponse.ok m, fs)

/-- Device behavior whose `/status` document is an empty object: every
generic field, starting with `wifi_sta`, is missing. -/
def apiC3 : String → DeviceApi :=
  fun _ path =>
    if path = "/shelly" then Except.ok (Json.obj [("type", Json.str "UNKNOWN-1")])
    else if path = "/status" then Except.ok (Json.obj [])
    else Except.error "404"

/-- Counterexample to C3: a probe of a reachable device whose status document
lacks the expected field `wifi_sta` does NOT return the HTTP 400 error
response; the `KeyError` raised by `status['wifi_sta']` is not a
`ShellyException`, so it escapes `Prober.on_get` uncaught (a generic server
error), though no partially populated collection is returned. -/
theorem C3_counterexample :
    proberOnGet (some "dev1") none apiC3 0 ⟨some []⟩ =
      (ProbeResponse.serverError (PyErr.keyError "wifi_sta"), ⟨some []⟩) ∧
    isBadRequest (proberOnGet (some "dev1") none apiC3 0 ⟨some []⟩).1 = false := by
  constructor
  · rfl
  · rfl

/-- C3 as amended: a missing expected field is a hard failure for the probe —
no collection at all is returned and the store is untouched — but it surfaces
as an uncaught `KeyError` (generic server error), not as the HTTP 400 path;
the 400 with the error text is produced exactly for `ShellyException`
failures (transport errors, JSON-decode errors, missing target). -/
theorem C3_missing_field_not_400 (target? save? : Option String)
    (api : String → DeviceApi) (now : Int) (fs : MetricsFS) :
    (∀ k, shellyPipeline target? api = Except.error (PyErr.keyError k) →
      proberOnGet target? save? api now fs =
        (ProbeResponse.serverError (PyErr.keyError k), fs)) ∧
    (∀ s, shellyPipeline target? api = Except.error (PyErr.shelly s) →
      proberOnGet target? save? api now fs = (ProbeResponse.badRequest s, fs)) := by
  constructor
  · intro k hk
    simp [proberOnGet, hk]
  · intro s hs
    simp [proberOnGet, hs]

/-- Witness for the amended C3 at the concrete device with an empty status
document (save parameter present but not the exact string true). -/
theorem C3_missing_field_not_400_witness :
    proberOnGet (some "dev1") (some "1") apiC3 0 ⟨some []⟩ =
      (ProbeResponse.serverError (PyErr.keyError "wifi_sta"), ⟨some []⟩) :=
  (C3_missing_field_not_400 (some "dev1") (some "1") apiC3 0 ⟨some []⟩).1
    "wifi_sta" rfl

/-- Invariant of every collection the getters build: it carries the `shelly`
name prefix and holds no `shelly_probetime` metric (that name is only ever
added by the save branch of the probe handler). -/
def baseShape (m : Metrics) : Prop :=
  m.pfx = some "shelly" ∧ m.find? "shelly_probetime" = none

theorem baseShape_add (m : Metrics) (metric : String) (v : Json) (l : Labels)
    (h t : String) (hm : baseShape m)
    (hne : prefName (some "shelly") metric ≠ "shelly_probetime") :
    baseShape (m.add metric v l h t) := by
  constructor
  · rw [add_pfx]
    exact hm.1
  · rw [find?_add, hm.1, if_neg (Ne.symm hne)]
    exact hm.2

theorem baseShape_baseBuild (name : String)
    (ty v1 v2 v3 v4 v5 v6 v7 v8 v9 v10 v11 : Json) :
    baseShape (baseBuild name ty v1 v2 v3 v4 v5 v6 v7 v8 v9 v10 v11) := by
  unfold baseBuild
  repeat
    refine baseShape_add _ _ _ _ _ _ ?_ (by decide)
  exact ⟨rfl, rfl⟩

theorem baseShape_getMetricsBase (name : String) (ty : Json) (api : DeviceApi)
    (m2 : Metrics) (hs : getMetricsBase name ty api = Except.ok m2) :
    baseShape m2 := by
  unfold getMetricsBase at hs
  repeat' split at hs
  all_goals cases hs
  exact baseShape_baseBuild _ _ _ _ _ _ _ _ _ _ _ _ _

theorem baseShape_relayBuild (m : Metrics) (i : Nat) (ison ht : Json)
    (timer : Option (Json × Json × Json)) (op : Json) (hm : baseShape m) :
    baseShape (relayBuild m i ison ht timer op) := by
  rcases timer with _ | ⟨ts, td, tr⟩ <;>
    simp only [relayBuild] <;>
      repeat
        first
        | exact hm
        | refine baseShape_add _ _ _ _ _ _ ?_ (by decide)

theorem baseShape_relayStep (m : Metrics) (i : Nat) (r : Json) (m2 : Metrics)
    (hs : relayStep m i r = Except.ok m2) (hm : baseShape m) : baseShape m2 := by
  unfold relayStep at hs
  repeat' split at hs
  all_goals cases hs
  all_goals exact baseShape_relayBuild _ _ _ _ _ _ hm

theorem baseShape_relayLoop (rs : List Json) (m : Metrics) (i : Nat) (m2 : Metrics)
    (hs : relayLoop m i rs = Except.ok m2) (hm : baseShape m) : baseShape m2 := by
  induction rs generalizing m i with
  | nil =>
      cases hs
      exact hm
  | cons r rest ih =>
      unfold relayLoop at hs
      split at hs
      · cases hs
      · rename_i m3 heq
        exact ih m3 (i + 1) hs (baseShape_relayStep m i r m3 heq hm)

theorem baseShape_meterStep (m : Metrics) (i : Nat) (r : Json) (m2 : Metrics)
    (hs : meterStep m i r = Except.ok m2) (hm : baseShape m) : baseShape m2 := by
  unfold meterStep at hs
  repeat' split at hs
  all_goals cases hs
  repeat
    refine baseShape_add _ _ _ _ _ _ ?_ (by decide)
  exact hm

theorem baseShape_meterLoop (rs : List Json) (m : Metrics) (i : Nat) (m2 : Metrics)
    (hs : meterLoop m i rs = Except.ok m2) (hm : baseShape m) : baseShape m2 := by
  induction rs generalizing m i with
  | nil =>
      cases hs
      exact hm
  | cons r rest ih =>
      unfold meterLoop at hs
      split at hs
      · cases hs
      · rename_i m3 heq
        exact ih m3 (i + 1) hs (baseShape_meterStep m i r m3 heq hm)

theorem baseShape_plugTail (m : Metrics) (status : Json) (m2 : Metrics)
    (hs : plugTail m status = Except.ok m2) (hm : baseShape m) : baseShape m2 := by
  unfold plugTail at hs
  split at hs
  · cases hs
  · split at hs
    · cases hs
    · split at hs
      · cases hs
      · rename_i m3 hloop
        split at hs
        · cases hs
        · split at hs
          · cases hs
          · exact baseShape_meterLoop _ m3 0 m2 hs
              (baseShape_relayLoop _ m 0 m3 hloop hm)

theorem baseShape_thermoStep (m : Metrics) (i : Nat) (r : Json) (m2 : Metrics)
    (hs : thermoStep m i r = Except.ok m2) (hm : baseShape m) : baseShape m2 := by
  unfold thermoStep at hs
  repeat' split at hs
  all_goals cases hs
  repeat
    refine baseShape_add _ _ _ _ _ _ ?_ (by decide)
  exact hm

theorem baseShape_thermoLoop (rs : List Json) (m : Metrics) (i : Nat) (m2 : Metrics)
    (hs : thermoLoop m i rs = Except.ok m2) (hm : baseShape m) : baseShape m2 := by
  induction rs generalizing m i with
  | nil =>
      cases hs
      exact hm
  | cons r rest ih =>
      unfold thermoLoop at hs
      split at hs
      · cases hs
      · rename_i m3 heq
        exact ih m3 (i + 1) hs (baseShape_thermoStep m i r m3 heq hm)

theorem baseShape_getMetricsPlug (name : String) (ty : Json) (api : DeviceApi)
    (m2 : Metrics) (hs : getMetricsPlug name ty api = Except.ok m2) : baseShape m2 := by
  unfold getMetricsPlug at hs
  split at hs
  · cases hs
  · rename_i m hbase
    split at hs
    · cases hs
    · split at hs
      · cases hs
      · split at hs
        · cases hs
        · split at hs
          · repeat' split at hs
            all_goals try cases hs
            refine baseShape_plugTail _ _ _ hs ?_
            repeat
              first
              | exact baseShape_getMetricsBase name ty api m hbase
              | refine baseShape_add _ _ _ _ _ _ ?_ (by decide)
          · refine baseShape_plugTail _ _ _ hs ?_
            refine baseShape_add _ _ _ _ _ _ ?_ (by decide)
            exact baseShape_getMetricsBase name ty api m hbase

theorem baseShape_getMetricsTrv (name : String) (ty : Json) (api : DeviceApi)
    (m2 : Metrics) (hs : getMetricsTrv name ty api = Except.ok m2) : baseShape m2 := by
  unfold getMetricsTrv at hs
  split at hs
  · cases hs
  · rename_i m hbase
    repeat' split at hs
    all_goals try cases hs
    refine baseShape_thermoLoop _ _ 0 m2 hs ?_
    repeat
      first
      | exact baseShape_getMetricsBase name ty api m hbase
      | refine baseShape_add _ _ _ _ _ _ ?_ (by decide)

theorem baseShape_getMetricsHt (name : String) (ty : Json) (api : DeviceApi)
    (m2 : Metrics) (hs : getMetricsHt name ty api = Except.ok m2) : baseShape m2 := by
  unfold getMetricsHt at hs
  split at hs
  · cases hs
  · rename_i m hbase
    repeat' split at hs
    all_goals cases hs
    repeat
      first
      | exact baseShape_getMetricsBase name ty api m hbase
      | refine baseShape_add _ _ _ _ _ _ ?_ (by decide)

theorem baseShape_shellyGetMetrics (name : String) (ty : Json) (api : DeviceApi)
    (m2 : Metrics) (hs : shellyGetMetrics name ty api = Except.ok m2) : baseShape m2 := by
  unfold shellyGetMetrics at hs
  split at hs
  · exact baseShape_getMetricsPlug name ty api m2 hs
  · split at hs
    · exact baseShape_getMetricsTrv name ty api m2 hs
    · split at hs
      · exact baseShape_getMetricsHt name ty api m2 hs
      · exact baseShape_getMetricsBase name ty api m2 hs

/-- A successful probe never contains a `shelly_probetime` metric: that name
is added only by the save branch of the handler. -/
theorem pipeline_no_probetime (target? : Option String) (api : String → DeviceApi)
    (name : String) (m : Metrics)
    (hs : shellyPipeline target? api = Except.ok (name, m)) :
    m.find? "shelly_probetime" = none := by
  unfold shellyPipeline at hs
  split at hs
  · cases hs
  · split at hs
    · cases hs
    · split at hs
      · cases hs
      · split at hs
        · cases hs
        · cases hs
          exact (baseShape_shellyGetMetrics _ _ _ _ (by assumption)).2

/-- C9: the save branch of `/probe` requires the exact string `true`. With
any other save parameter (absent, `True`, `TRUE`, `1`, ...) the request
leaves the persisted store unchanged, its response does not depend on the
store at all (the store is neither read nor written), and a successful
response contains no `probetime` metric. -/
theorem C9_save_gate (target? save? : Option String) (api : String → DeviceApi)
    (now : Int) (fs fs2 : MetricsFS) (hsave : save? ≠ some "true") :
    (proberOnGet target? save? api now fs).2 = fs ∧
    (proberOnGet target? save? api now fs).1 = (proberOnGet target? save? api now fs2).1 ∧
    (∀ m, (proberOnGet target? save? api now fs).1 = ProbeResponse.ok m →
      m.find? "shelly_probetime" = none) := by
  unfold proberOnGet
  rcases hp : shellyPipeline target? api with e | nm
  · rcases e with s | k | _ | _ <;> simp [hp]
  · obtain ⟨nm1, m1⟩ := nm
    have hnp := pipeline_no_probetime target? api nm1 m1 hp
    simp only [hp, if_neg hsave]
    refine ⟨by trivial, by trivial, ?_⟩
    intro m hm
    cases hm
    exact hnp

/-- Total field access used in characterizations for fields the loop is known
to have read successfully. -/
def jGet (r : Json) (k : String) : Json :=
  match r.index k with
  | Except.ok v => v
  | Except.error _ => Json.null

/-- Status field backing each timer-detail metric name. -/
def timerField (k : String) : String :=
  if k = "shelly_relay_timer_started" then "timer_started"
  else if k = "shelly_relay_timer_duration" then "timer_duration"
  else "timer_remaining"

/-- The timer-detail samples the relay loop emits for one metric name: one
sample for each channel whose `has_timer` is truthy (armed), none for the
others. -/
def timerSamples (L : Labels) (field : String) (i : Nat) : List Json → List Sample
  | [] => []
  | r :: rest =>
      (if (jGet r "has_timer").truthy then
        [⟨dictMerge L [("relay", Json.str (toString i))], jGet r field⟩]
      else []) ++ timerSamples L field (i + 1) rest

theorem relayStep_timer_values (m : Metrics) (i : Nat) (r : Json) (m3 : Metrics)
    (hs : relayStep m i r = Except.ok m3) (hp : m.pfx = some "shelly") (k : String)
    (hk : k = "shelly_relay_timer_started" ∨ k = "shelly_relay_timer_duration" ∨
      k = "shelly_relay_timer_remaining") :
    m3.pfx = some "shelly" ∧ m3.labels = m.labels ∧
    metricValues m3 k = metricValues m k ++
      (if (jGet r "has_timer").truthy then
        [⟨dictMerge m.labels [("relay", Json.str (toString i))], jGet r (timerField k)⟩]
      else []) := by
  obtain ⟨pfx0, L, ms⟩ := m
  simp only at hp
  subst hp
  unfold relayStep at hs
  split at hs
  · cases hs
  · rename_i ison hison
    split at hs
    · cases hs
    · rename_i ht hht
      split at hs
      · rename_i htruthy
        split at hs
        · cases hs
        · rename_i ts hts
          split at hs
          · cases hs
          · rename_i td htd
            split at hs
            · cases hs
            · rename_i tr htr
              split at hs
              · cases hs
              · rename_i op hop
                cases hs
                rcases hk with rfl | rfl | rfl <;>
                  refine ⟨rfl, rfl, ?_⟩ <;>
                    simp [relayBuild, relayLabels, metricValues_add, prefName,
                      add_pfx, add_labels, jGet, hht, htruthy, hts, htd, htr, timerField]
      · rename_i htruthy
        split at hs
        · cases hs
        · rename_i op hop
          cases hs
          rcases hk with rfl | rfl | rfl <;>
            refine ⟨rfl, rfl, ?_⟩ <;>
              simp [relayBuild, relayLabels, metricValues_add, prefName,
                add_pfx, add_labels, jGet, hht, htruthy, timerField]

/-- Through the whole relay loop, each timer-detail metric gains exactly one
sample per armed channel (channel label `relay=i`, value from the matching
timer field) and no sample at all for a channel whose timer is not armed. -/
theorem relayLoop_timer_values (rs : List Json) (m : Metrics) (i : Nat) (m2 : Metrics)
    (hs : relayLoop m i rs = Except.ok m2) (hp : m.pfx = some "shelly") (k : String)
    (hk : k = "shelly_relay_timer_started" ∨ k = "shelly_relay_timer_duration" ∨
      k = "shelly_relay_timer_remaining") :
    m2.pfx = some "shelly" ∧ m2.labels = m.labels ∧
    metricValues m2 k = metricValues m k ++ timerSamples m.labels (timerField k) i rs := by
  induction rs generalizing m i with
  | nil =>
      cases hs
      exact ⟨hp, rfl, by simp [timerSamples]⟩
  | cons r rest ih =>
      unfold relayLoop at hs
      split at hs
      · cases hs
      · rename_i m3 heq
        obtain ⟨hp3, hl3, hv3⟩ := relayStep_timer_values m i r m3 heq hp k hk
        obtain ⟨hp2, hl2, hv2⟩ := ih m3 (i + 1) hs hp3
        refine ⟨hp2, by rw [hl2, hl3], ?_⟩
        rw [hv2, hv3, hl3]
        simp [timerSamples, List.append_assoc]

/-- Scenario status document for a `SHPLG-S` plug: two relays (channel 0 on
with no timer, channel 1 off with an armed 30s timer) and two meters. -/
def plugStatus : Json := Json.obj [
  ("wifi_sta", Json.obj [("connected", Json.bool true)]),
  ("cloud", Json.obj [("enabled", Json.bool true), ("connected", Json.bool true)]),
  ("mqtt", Json.obj [("connected", Json.bool false)]),
  ("serial", Json.num 17),
  ("update", Json.obj [("has_update", Json.bool false)]),
  ("ram_total", Json.num 50592),
  ("ram_free", Json.num 38276),
  ("fs_size", Json.num 233681),
  ("fs_free", Json.num 162648),
  ("uptime", Json.num 123456),
  ("temperature", Json.num 24),
  ("overtemperature", Json.bool false),
  ("relays", Json.arr [
    Json.obj [("ison", Json.bool true), ("has_timer", Json.bool false),
      ("overpower", Json.bool false)],
    Json.obj [("ison", Json.bool false), ("has_timer", Json.bool true),
      ("timer_started", Json.num 1700000000), ("timer_duration", Json.num 30),
      ("timer_remaining", Json.num 12), ("overpower", Json.bool false)]]),
  ("meters", Json.arr [
    Json.obj [("power", Json.num 20), ("is_valid", Json.bool true), ("total", Json.num 1500)],
    Json.obj [("power", Json.num 5), ("is_valid", Json.bool true), ("total", Json.num 700)]])]

/-- Scenario settings document for the plug. -/
def plugSettings : Json := Json.obj [
  ("max_power", Json.num 2500),
  ("led_status_disable", Json.bool false),
  ("led_power_disable", Json.bool false)]

/-- Device behavior of the scenario plug. -/
def apiC8 : DeviceApi :=
  fun path =>
    if path = "/shelly" then Except.ok (Json.obj [("type", Json.str "SHPLG-S")])
    else if path = "/status" then Except.ok plugStatus
    else if path = "/settings" then Except.ok plugSettings
    else Except.error "404"

/-- Sample list of one metric in a probe result (empty on failure). -/
def valuesOf (res : Except PyErr Metrics) (k : String) : List Sample :=
  match res with
  | Except.ok m => metricValues m k
  | Except.error _ => []

/-- C8: for the `SHPLG-S` scenario (two relays: channel 0 on with no timer,
channel 1 off with an armed timer; two meters) the extraction yields exactly
two `relay_ison` series valued true and false, two `relay_has_timer` series
valued false and true, each timer-detail series present exactly once and only
for channel 1, and two `meter_power` and two `meter_total` series, one per
meter index; and in general, through the relay loop, every timer-detail
series is emitted for a channel exactly when that channel's `has_timer` is
truthy (armed). -/
theorem C8_plug_extraction :
    (valuesOf (shellyGetMetrics "plug1" (Json.str "SHPLG-S") apiC8) "shelly_relay_ison" =
      [⟨[("name", Json.str "plug1"), ("type", Json.str "SHPLG-S"), ("relay", Json.str "0")],
        Json.bool true⟩,
       ⟨[("name", Json.str "plug1"), ("type", Json.str "SHPLG-S"), ("relay", Json.str "1")],
        Json.bool false⟩]) ∧
    (valuesOf (shellyGetMetrics "plug1" (Json.str "SHPLG-S") apiC8) "shelly_relay_has_timer" =
      [⟨[("name", Json.str "plug1"), ("type", Json.str "SHPLG-S"), ("relay", Json.str "0")],
        Json.bool false⟩,
       ⟨[("name", Json.str "plug1"), ("type", Json.str "SHPLG-S"), ("relay", Json.str "1")],
        Json.bool true⟩]) ∧
    (valuesOf (shellyGetMetrics "plug1" (Json.str "SHPLG-S") apiC8) "shelly_relay_timer_started" =
      [⟨[("name", Json.str "plug1"), ("type", Json.str "SHPLG-S"), ("relay", Json.str "1")],
        Json.num 1700000000⟩]) ∧
    (valuesOf (shellyGetMetrics "plug1" (Json.str "SHPLG-S") apiC8) "shelly_relay_timer_duration" =
      [⟨[("name", Json.str "plug1"), ("type", Json.str "SHPLG-S"), ("relay", Json.str "1")],
        Json.num 30⟩]) ∧
    (valuesOf (shellyGetMetrics "plug1" (Json.str "SHPLG-S") apiC8) "shelly_relay_timer_remaining" =
      [⟨[("name", Json.str "plug1"), ("type", Json.str "SHPLG-S"), ("relay", Json.str "1")],
        Json.num 12⟩]) ∧
    (valuesOf (shellyGetMetrics "plug1" (Json.str "SHPLG-S") apiC8) "shelly_meter_power" =
      [⟨[("name", Json.str "plug1"), ("type", Json.str "SHPLG-S"), ("meter", Json.str "0")],
        Json.num 20⟩,
       ⟨[("name", Json.str "plug1"), ("type", Json.str "SHPLG-S"), ("meter", Json.str "1")],
        Json.num 5⟩]) ∧
    (valuesOf (shellyGetMetrics "plug1" (Json.str "SHPLG-S") apiC8) "shelly_meter_total" =
      [⟨[("name", Json.str "plug1"), ("type", Json.str "SHPLG-S"), ("meter", Json.str "0")],
        Json.num 1500⟩,
       ⟨[("name", Json.str "plug1"), ("type", Json.str "SHPLG-S"), ("meter", Json.str "1")],
        Json.num 700⟩]) ∧
    (∀ (rs : List Json) (m : Metrics) (i : Nat) (m2 : Metrics),
      relayLoop m i rs = Except.ok m2 → m.pfx = some "shelly" →
      ∀ k, (k = "shelly_relay_timer_started" ∨ k = "shelly_relay_timer_duration" ∨
        k = "shelly_relay_timer_remaining") →
      metricValues m2 k = metricValues m k ++ timerSamples m.labels (timerField k) i rs) := by
  refine ⟨rfl, rfl, rfl, rfl, rfl, rfl, rfl, ?_⟩
  intro rs m i m2 hs hp k hk
  exact (relayLoop_timer_values rs m i m2 hs hp k hk).2.2

/-- Witness for C8: the general timer law instantiated on the scenario's own
relay list, starting from the base collection the scenario produces. -/
theorem C8_plug_extraction_witness :
    metricValues
      ((relayLoop (baseInit "plug1" (Json.str "SHPLG-S")) 0
        [Json.obj [("ison", Json.bool true), ("has_timer", Json.bool false),
          ("overpower", Json.bool false)],
         Json.obj [("ison", Json.bool false), ("has_timer", Json.bool true),
          ("timer_started", Json.num 1700000000), ("timer_duration", Json.num 30),
          ("timer_remaining", Json.num 12), ("overpower", Json.bool false)]]).toOption.getD
        emptyMetrics) "shelly_relay_timer_started" =
      metricValues (baseInit "plug1" (Json.str "SHPLG-S")) "shelly_relay_timer_started" ++
        timerSamples (baseInit "plug1" (Json.str "SHPLG-S")).labels
          (timerField "shelly_relay_timer_started") 0
          [Json.obj [("ison", Json.bool true), ("has_timer", Json.bool false),
            ("overpower", Json.bool false)],
           Json.obj [("ison", Json.bool false), ("has_timer", Json.bool true),
            ("timer_started", Json.num 1700000000), ("timer_duration", Json.num 30),
            ("timer_remaining", Json.num 12), ("overpower", Json.bool false)]] :=
  C8_plug_extraction.2.2.2.2.2.2.2
    [Json.obj [("ison", Json.bool true), ("has_timer", Json.bool false),
      ("overpower", Json.bool false)],
     Json.obj [("ison", Json.bool false), ("has_timer", Json.bool true),
      ("timer_started", Json.num 1700000000), ("timer_duration", Json.num 30),
      ("timer_remaining", Json.num 12), ("overpower", Json.bool false)]]
    (baseInit "plug1" (Json.str "SHPLG-S")) 0 _ rfl rfl
    "shelly_relay_timer_started" (Or.inl rfl)

/-- Witness for C9: a request with `save=True` (wrong capitalization) leaves
the store unchanged, ignores the store for its response, and cannot answer
with a `probetime` metric. -/
theorem C9_save_gate_witness :
    (proberOnGet (some "dev1") (some "True") apiC3 0 ⟨some []⟩).2 = ⟨some []⟩ ∧
    (proberOnGet (some "dev1") (some "True") apiC3 0 ⟨some []⟩).1 =
      (proberOnGet (some "dev1") (some "True") apiC3 0 ⟨none⟩).1 ∧
    (∀ m, (proberOnGet (some "dev1") (some "True") apiC3 0 ⟨some []⟩).1 = ProbeResponse.ok m →
      m.find? "shelly_probetime" = none) :=
  C9_save_gate (some "dev1") (some "True") apiC3 0 ⟨some []⟩ ⟨none⟩ (by decide)
